import Mathlib

/-!
Verification of the soehnle-t3005 codec (src/lib.rs).

A Rust `&str` is modelled as a `List Char` of Unicode scalar values.
Byte-level operations of the source (`s.len()`, `s.as_bytes()[0]`,
`s.is_ascii()`) are modelled through the UTF-8 encoding length and the
UTF-8 leading byte of each scalar. `str::trim` removes characters with
the Unicode White_Space property on both ends.

The `f32` field of `Message` is modelled as the normalized numeral token
that Rust's `f32::from_str` accepted: every claim below concerns only
whether that parse succeeds, never the floating-point value itself, so
the token retains all the information the claims need.
-/

namespace Soehnle

/-- Characters a Rust `&str` may hold are ASCII iff their scalar value is below 128. -/
def isAsciiChar (c : Char) : Bool := decide (c.toNat < 128)

/-- Number of bytes of the UTF-8 encoding of a scalar value. -/
def utf8Len (c : Char) : Nat :=
  if c.toNat < 0x80 then 1
  else if c.toNat < 0x800 then 2
  else if c.toNat < 0x10000 then 3
  else 4

/-- The first byte of the UTF-8 encoding of a scalar value
(what `s.as_bytes()[0]` sees when `c` is the first character). -/
def utf8LeadByte (c : Char) : Nat :=
  if c.toNat < 0x80 then c.toNat
  else if c.toNat < 0x800 then 0xC0 + c.toNat / 64
  else if c.toNat < 0x10000 then 0xE0 + c.toNat / 4096
  else 0xF0 + c.toNat / 262144

/-- `s.len()` of a Rust string: its byte count. -/
def byteLen (l : List Char) : Nat := (l.map utf8Len).sum

/-- `s.is_ascii()`. -/
def allAscii (l : List Char) : Bool := l.all isAsciiChar

/-- Rust `char::is_whitespace`: the Unicode White_Space property. -/
def isRustWhitespace (c : Char) : Bool :=
  (decide (9 ≤ c.toNat) && decide (c.toNat ≤ 13)) || decide (c.toNat = 32) ||
  decide (c.toNat = 0x85) || decide (c.toNat = 0xA0) || decide (c.toNat = 0x1680) ||
  (decide (0x2000 ≤ c.toNat) && decide (c.toNat ≤ 0x200A)) ||
  decide (c.toNat = 0x2028) || decide (c.toNat = 0x2029) ||
  decide (c.toNat = 0x202F) || decide (c.toNat = 0x205F) || decide (c.toNat = 0x3000)

/-- Rust `str::trim`: drop White_Space characters from both ends. -/
def trim (l : List Char) : List Char :=
  ((l.dropWhile isRustWhitespace).reverse.dropWhile isRustWhitespace).reverse

/-- Convenience: the character list of a Lean string literal. -/
def chars (s : String) : List Char := s.data

/-- The distinct error values of the library.  Every error in the source is
`Error::new(ErrorKind::InvalidData | InvalidInput, msg)`; the constructors
below stand for the distinct `msg` strings (the only distinguishing data). -/
inductive Err where
  /-- "Invalid message length" -/
  | invalidMessageLength
  /-- "None-ASCII str" (in `Message::from_str`) -/
  | noneAsciiStr
  /-- "Non-ASCII str" (in `Status::from_str`) -/
  | nonAsciiStr
  /-- "Invalid balance ID" -/
  | invalidBalanceId
  /-- "Could not parse boolean" -/
  | couldNotParseBoolean
  /-- "Invalid tare value" -/
  | invalidTareValue
deriving DecidableEq, Repr

/-- Balance status (struct `Status`). -/
structure Status where
  under_load : Bool
  over_load : Bool
  standstill : Bool
  empty_message : Bool
deriving DecidableEq, Repr

/-- A message received from the terminal (struct `Message`).  `value` holds
the normalized numeral token accepted by `f32::from_str` (see file header). -/
structure Message where
  status : Status
  id : Nat
  value : List Char
deriving DecidableEq, Repr

/-- A Command/Query response (enum `Response`). -/
inductive Response where
  | ack
  | nak
  | message (m : Message)
deriving DecidableEq, Repr

/-- Balance command (enum `Command`).  `SetTare` holds a `u32`; only the
comparison with 9 999 999 and decimal rendering matter, so `Nat` is used. -/
inductive Command where
  | tare
  | clearTare
  | setTare (v : Nat)
deriving DecidableEq, Repr

/-- Balance query command (enum `Query`). -/
inductive Query where
  | once
  | onceOnChange
deriving DecidableEq, Repr

/-- The ASCII character of a decimal digit. -/
def digitChar (n : Nat) : Char := Char.ofNat (48 + n)

/-- Fuel-driven digit rendering; `fuel` bounds the recursion depth and any
`fuel > 0` at least the number of digits of `n` is enough. -/
def decimalDigitsAux : Nat → Nat → List Char
  | 0, _ => []
  | fuel + 1, n =>
    if n < 10 then [digitChar n]
    else decimalDigitsAux fuel (n / 10) ++ [digitChar (n % 10)]

/-- Decimal digits of `n`, most significant first (the digits that
Rust's `format!` emits for an unsigned integer). -/
def decimalDigits (n : Nat) : List Char := decimalDigitsAux (n + 1) n

/-- Rust `format!("{:07}", v)`: pad the decimal rendering with zeros on the
left up to a minimum width of 7. -/
def zeroPad7 (v : Nat) : List Char :=
  List.replicate (7 - (decimalDigits v).length) '0' ++ decimalDigits v

/-- `impl ToAsciiString for Command` (src/lib.rs:64-79). -/
def commandToAsciiString : Command → Except Err (List Char)
  | .tare => .ok (chars "<T>")
  | .clearTare => .ok (chars "<TC>")
  | .setTare v =>
    if v > 9999999 then .error .invalidTareValue
    else .ok ('<' :: 'T' :: (zeroPad7 v ++ ['>']))

/-- `impl ToAsciiString for WithAck<Command>` (src/lib.rs:81-96). -/
def withAckCommandToAsciiString : Command → Except Err (List Char)
  | .tare => .ok (chars "<t>")
  | .clearTare => .ok (chars "<tC>")
  | .setTare v =>
    if v > 9999999 then .error .invalidTareValue
    else .ok ('<' :: 't' :: (zeroPad7 v ++ ['>']))

/-- `impl ToAsciiString for Query` (src/lib.rs:104-113). -/
def queryToAsciiString : Query → Except Err (List Char)
  | .once => .ok (chars "<A>")
  | .onceOnChange => .ok (chars "<B>")

/-- `impl ToAsciiString for WithAck<Query>` (src/lib.rs:115-124). -/
def withAckQueryToAsciiString : Query → Except Err (List Char)
  | .once => .ok (chars "<a>")
  | .onceOnChange => .ok (chars "<b>")

/-- `bool_from_str` (src/lib.rs:199-208). -/
def bool_from_str (s : List Char) : Except Err Bool :=
  if s = ['1'] then .ok true
  else if s = ['0'] then .ok false
  else .error .couldNotParseBoolean

/-- `impl FromStr for Status` (src/lib.rs:176-197).  `split_at` on a Rust
string slice is `(take, drop)` at a byte index; the splits happen after the
ASCII check, where byte and character indices coincide. -/
def statusFromStr (s : List Char) : Except Err Status :=
  if byteLen s ≠ 4 then .error .invalidMessageLength
  else if ¬ allAscii s then .error .nonAsciiStr
  else
    match bool_from_str (s.take 1) with
    | .error e => .error e
    | .ok under =>
      match bool_from_str ((s.drop 1).take 1) with
      | .error e => .error e
      | .ok over =>
        match bool_from_str ((s.drop 2).take 1) with
        | .error e => .error e
        | .ok stand =>
          match bool_from_str ((s.drop 3).take 1) with
          | .error e => .error e
          | .ok empty => .ok ⟨under, over, stand, empty⟩

/-- Rust `u8::from_str` on the digits part (no sign): nonempty, all decimal
digits, and the value fits in a `u8`. -/
def parseU8Digits (s : List Char) : Option Nat :=
  if s = [] then none
  else if s.all (fun c => decide (48 ≤ c.toNat) && decide (c.toNat ≤ 57)) then
    if s.foldl (fun acc c => acc * 10 + (c.toNat - 48)) 0 ≤ 255 then
      some (s.foldl (fun acc c => acc * 10 + (c.toNat - 48)) 0)
    else none
  else none

/-- Rust `u8::from_str`: an optional leading `+` (a `-` is rejected for
unsigned types), then digits. -/
def parseU8 (s : List Char) : Option Nat :=
  match s with
  | '+' :: rest => parseU8Digits rest
  | _ => parseU8Digits s

/-- Digit test used by the float grammar. -/
def isDigitChar (c : Char) : Bool := decide (48 ≤ c.toNat) && decide (c.toNat ≤ 57)

/-- Exponent part of Rust's float grammar: empty, or `e`/`E`, an optional
sign, and at least one digit. -/
def validFloatExp (s : List Char) : Bool :=
  match s with
  | [] => true
  | e :: rest =>
    (decide (e = 'e') || decide (e = 'E')) &&
    (let r := match rest with
      | '+' :: r => r
      | '-' :: r => r
      | r => r
     decide (r ≠ []) && r.all isDigitChar)

/-- Unsigned part of Rust's float grammar: `digits [. digits] [exp]` with at
least one digit in the mantissa. -/
def validFloatBody (s : List Char) : Bool :=
  let intPart := s.takeWhile isDigitChar
  let rest := s.dropWhile isDigitChar
  match rest with
  | '.' :: rest2 =>
    let fracPart := rest2.takeWhile isDigitChar
    let rest3 := rest2.dropWhile isDigitChar
    (decide (intPart ≠ []) || decide (fracPart ≠ [])) && validFloatExp rest3
  | _ => decide (intPart ≠ []) && validFloatExp rest

/-- Whether Rust `f32::from_str` accepts the string: optional sign, then a
number per `validFloatBody` or a case-insensitive special value
(`inf`, `infinity`, `nan`).  Overflow never fails a float parse, so success
is purely grammatical. -/
def isValidFloat (s : List Char) : Bool :=
  let body := match s with
    | '+' :: r => r
    | '-' :: r => r
    | r => r
  let lb := body.map Char.toLower
  decide (lb = chars "inf") || decide (lb = chars "infinity") ||
  decide (lb = chars "nan") || validFloatBody body

/-- `str::replace("kg", "")`: remove non-overlapping occurrences of `kg`
left to right. -/
def removeKg : List Char → List Char
  | 'k' :: 'g' :: rest => removeKg rest
  | c :: rest => c :: removeKg rest
  | [] => []

/-- The chained `replace` calls on the net-weight field (src/lib.rs:138-142):
drop `N`, drop `kg`, drop spaces, then turn `,` into `.`. -/
def normalizeWeight (netto : List Char) : List Char :=
  ((removeKg (netto.filter (fun c => !(c == 'N')))).filter
    (fun c => !(c == ' '))).map (fun c => if c = ',' then '.' else c)

/-- `impl FromStr for Message` (src/lib.rs:126-156).  The struct literal
evaluates its fields in source order: status, then id, then value; a `?`
failure propagates at once.  Note that the `map_err` on the value parse
produces the "Invalid balance ID" error, exactly as the source does. -/
def messageFromStr (s : List Char) : Except Err Message :=
  let t := trim s
  if byteLen t > 27 ∨ byteLen t < 7 then .error .invalidMessageLength
  else if ¬ allAscii t then .error .noneAsciiStr
  else
    let status := t.take 4
    let tail := t.drop 4
    let idField := tail.take 2
    let netto := tail.drop 2
    let v := normalizeWeight netto
    match statusFromStr status with
    | .error e => .error e
    | .ok st =>
      match parseU8 (idField.filter (fun c => !(c == 'W'))) with
      | none => .error .invalidBalanceId
      | some i =>
        if isValidFloat (trim v) then .ok ⟨st, i, trim v⟩
        else .error .invalidBalanceId

/-- `impl FromStr for Response` (src/lib.rs:158-174). -/
def responseFromStr (s : List Char) : Except Err Response :=
  let t := trim s
  if byteLen t < 1 then .error .invalidMessageLength
  else match t with
    | [] => .error .invalidMessageLength
    | c :: _ =>
      if utf8LeadByte c = 0x06 then .ok .ack
      else if utf8LeadByte c = 0x15 then .ok .nak
      else
        match messageFromStr t with
        | .error e => .error e
        | .ok m => .ok (.message m)

/-- Value denoted by a list of decimal digit characters (most significant
first); used to state that a rendered numeral denotes its number. -/
def digitsVal (l : List Char) : Nat :=
  l.foldl (fun acc c => acc * 10 + (c.toNat - 48)) 0

/-- Lowercase the tag letter of a serialized frame: the character right
after the opening `<`.  This is the spec's description of what the
acknowledgment wrapper does to the unwrapped serialization. -/
def lowerTag : List Char → List Char
  | a :: b :: rest => a :: b.toLower :: rest
  | l => l

/-! ### Basic lemmas about the byte-level model -/

theorem utf8Len_pos (c : Char) : 1 ≤ utf8Len c := by
  unfold utf8Len; split_ifs <;> omega

theorem utf8Len_of_ascii (c : Char) (h : isAsciiChar c = true) : utf8Len c = 1 := by
  simp only [isAsciiChar, decide_eq_true_eq] at h
  simp [utf8Len, h]

theorem byteLen_nil : byteLen [] = 0 := rfl

theorem byteLen_cons (c : Char) (l : List Char) :
    byteLen (c :: l) = utf8Len c + byteLen l := by
  simp [byteLen]

theorem byteLen_of_ascii : ∀ (l : List Char), allAscii l = true → byteLen l = l.length := by
  intro l
  induction l with
  | nil => intro _; rfl
  | cons c t ih =>
    intro h
    rw [allAscii, List.all_cons, Bool.and_eq_true] at h
    rw [byteLen_cons, utf8Len_of_ascii c h.1, ih h.2, List.length_cons]
    omega

theorem byteLen_lt_one_iff (l : List Char) : byteLen l < 1 ↔ l = [] := by
  cases l with
  | nil => simp [byteLen_nil]
  | cons c t =>
    simp only [byteLen_cons]
    have := utf8Len_pos c
    constructor
    · omega
    · intro h; cases h

theorem allAscii_take (n : Nat) (l : List Char) (h : allAscii l = true) :
    allAscii (l.take n) = true := by
  simp only [allAscii, List.all_eq_true] at h ⊢
  intro c hc
  exact h c (List.take_subset n l hc)

theorem allAscii_not_of_mem (l : List Char) (c : Char) (hc : c ∈ l)
    (h : isAsciiChar c = false) : ¬ allAscii l = true := by
  simp only [allAscii, List.all_eq_true]
  intro hall
  rw [hall c hc] at h
  cases h

/-! ### Lemmas about `bool_from_str` and `statusFromStr` -/

theorem bool_from_str_cases (s : List Char) :
    (∃ b, bool_from_str s = .ok b) ∨ bool_from_str s = .error .couldNotParseBoolean := by
  unfold bool_from_str
  split_ifs with h1 h2
  · exact Or.inl ⟨true, rfl⟩
  · exact Or.inl ⟨false, rfl⟩
  · exact Or.inr rfl

theorem bool_from_str_ok (s : List Char) (b : Bool) (h : bool_from_str s = .ok b) :
    (s = ['1'] ∧ b = true) ∨ (s = ['0'] ∧ b = false) := by
  unfold bool_from_str at h
  split_ifs at h with h1 h2
  · injection h with hb; exact Or.inl ⟨h1, hb.symm⟩
  · injection h with hb; exact Or.inr ⟨h2, hb.symm⟩

theorem statusFromStr_cases (l : List Char) (h4 : byteLen l = 4) (ha : allAscii l = true) :
    (∃ st, statusFromStr l = .ok st) ∨ statusFromStr l = .error .couldNotParseBoolean := by
  unfold statusFromStr
  rw [if_neg (by omega), if_neg (by simp [ha])]
  rcases bool_from_str_cases (l.take 1) with ⟨b1, h1⟩ | h1 <;> rw [h1]
  case inr => exact Or.inr rfl
  rcases bool_from_str_cases ((l.drop 1).take 1) with ⟨b2, h2⟩ | h2 <;> rw [h2]
  case inr => exact Or.inr rfl
  rcases bool_from_str_cases ((l.drop 2).take 1) with ⟨b3, h3⟩ | h3 <;> rw [h3]
  case inr => exact Or.inr rfl
  rcases bool_from_str_cases ((l.drop 3).take 1) with ⟨b4, hb4⟩ | hb4 <;> rw [hb4]
  case inr => exact Or.inr rfl
  exact Or.inl ⟨_, rfl⟩

theorem bool_from_str_ok_char (c : Char) (b : Bool) (h : bool_from_str [c] = .ok b) :
    c = '0' ∨ c = '1' := by
  rcases bool_from_str_ok [c] b h with ⟨hc, _⟩ | ⟨hc, _⟩
  · right; injection hc
  · left; injection hc

theorem statusFromStr_ok_chars (a b c d : Char) (st : Status)
    (h : statusFromStr [a, b, c, d] = .ok st) :
    (a = '0' ∨ a = '1') ∧ (b = '0' ∨ b = '1') ∧ (c = '0' ∨ c = '1') ∧ (d = '0' ∨ d = '1') := by
  unfold statusFromStr at h
  split_ifs at h
  split at h
  case _ e heq => cases h
  case _ b1 heq1 =>
    split at h
    case _ e heq => cases h
    case _ b2 heq2 =>
      split at h
      case _ e heq => cases h
      case _ b3 heq3 =>
        split at h
        case _ e heq => cases h
        case _ b4 heq4 =>
          exact ⟨bool_from_str_ok_char a b1 heq1, bool_from_str_ok_char b b2 heq2,
            bool_from_str_ok_char c b3 heq3, bool_from_str_ok_char d b4 heq4⟩

/-! ### Lemmas about `parseU8` -/

theorem parseU8Digits_le_99 (l : List Char) (n : Nat) (hlen : l.length ≤ 2)
    (h : parseU8Digits l = some n) : n ≤ 99 := by
  match l with
  | [] => simp [parseU8Digits] at h
  | [c] =>
    rw [parseU8Digits, if_neg (by simp)] at h
    split_ifs at h with hdig hle
    · injection h with hn
      simp only [List.all_cons, List.all_nil, Bool.and_true, Bool.and_eq_true,
        decide_eq_true_eq] at hdig
      simp only [List.foldl_cons, List.foldl_nil] at hn
      omega
  | [c1, c2] =>
    rw [parseU8Digits, if_neg (by simp)] at h
    split_ifs at h with hdig hle
    · injection h with hn
      simp only [List.all_cons, List.all_nil, Bool.and_true, Bool.and_eq_true,
        decide_eq_true_eq] at hdig
      simp only [List.foldl_cons, List.foldl_nil] at hn
      omega
  | c1 :: c2 :: c3 :: t => simp at hlen

theorem parseU8_le_99 (l : List Char) (n : Nat) (hlen : l.length ≤ 2)
    (h : parseU8 l = some n) : n ≤ 99 := by
  unfold parseU8 at h
  split at h
  case _ rest =>
    apply parseU8Digits_le_99 rest n _ h
    simp at hlen
    omega
  case _ => exact parseU8Digits_le_99 l n hlen h

/-! ### Lemmas about the decimal rendering -/

theorem decimalDigitsAux_length : ∀ (fuel k n : Nat), n < 10 ^ (k + 1) →
    (decimalDigitsAux fuel n).length ≤ k + 1 := by
  intro fuel
  induction fuel with
  | zero => intro k n _; simp [decimalDigitsAux]
  | succ f ih =>
    intro k n hn
    simp only [decimalDigitsAux]
    split_ifs with h10
    · simp
    · cases k with
      | zero => simp at hn; omega
      | succ k2 =>
        have hdiv : n / 10 < 10 ^ (k2 + 1) := by
          have hmul : n < 10 ^ (k2 + 1) * 10 := by
            rw [← pow_succ]; exact hn
          exact (Nat.div_lt_iff_lt_mul (by norm_num)).2 hmul
        have := ih k2 (n / 10) hdiv
        simp only [List.length_append, List.length_cons, List.length_nil]
        omega

theorem toNat_digitChar (d : Nat) (h : d ≤ 9) : (digitChar d).toNat = 48 + d := by
  interval_cases d <;> rfl

theorem decimalDigits_length_le (n : Nat) (h : n ≤ 9999999) :
    (decimalDigits n).length ≤ 7 := by
  have h7 : n < 10 ^ (6 + 1) := by norm_num; omega
  exact decimalDigitsAux_length (n + 1) 6 n h7

theorem digitsVal_append_digit (l : List Char) (c : Char) :
    digitsVal (l ++ [c]) = digitsVal l * 10 + (c.toNat - 48) := by
  simp [digitsVal, List.foldl_append]

theorem decimalDigitsAux_val : ∀ (fuel n : Nat), n < fuel →
    digitsVal (decimalDigitsAux fuel n) = n := by
  intro fuel
  induction fuel with
  | zero => intro n h; omega
  | succ f ih =>
    intro n h
    simp only [decimalDigitsAux]
    split_ifs with h10
    · simp [digitsVal, toNat_digitChar n (by omega)]
    · have h1 : n / 10 < f := by
        have h2 : n / 10 < n := Nat.div_lt_self (by omega) (by omega)
        omega
      rw [digitsVal_append_digit, ih (n / 10) h1, toNat_digitChar (n % 10) (by omega)]
      omega

theorem decimalDigits_val (n : Nat) : digitsVal (decimalDigits n) = n :=
  decimalDigitsAux_val (n + 1) n (by omega)

theorem digitsVal_replicate_zero_append (k : Nat) (l : List Char) :
    digitsVal (List.replicate k '0' ++ l) = digitsVal l := by
  induction k with
  | zero => rfl
  | succ m ih =>
    rw [List.replicate_succ, List.cons_append]
    simp only [digitsVal, List.foldl_cons] at ih ⊢
    convert ih using 2

theorem zeroPad7_length (v : Nat) (h : v ≤ 9999999) : (zeroPad7 v).length = 7 := by
  have := decimalDigits_length_le v h
  simp only [zeroPad7, List.length_append, List.length_replicate]
  omega

theorem zeroPad7_val (v : Nat) : digitsVal (zeroPad7 v) = v := by
  rw [zeroPad7, digitsVal_replicate_zero_append, decimalDigits_val]

/-! ### Lemmas about `messageFromStr` -/

theorem byteLen_take_four (l : List Char) (ha : allAscii l = true) (h7 : 7 ≤ byteLen l) :
    byteLen (l.take 4) = 4 := by
  rw [byteLen_of_ascii _ (allAscii_take 4 l ha), List.length_take]
  rw [byteLen_of_ascii _ ha] at h7
  omega

theorem messageFromStr_gate_eq (s : List Char) (h7 : 7 ≤ byteLen (trim s))
    (h27 : byteLen (trim s) ≤ 27) (ha : allAscii (trim s) = true) :
    messageFromStr s =
      (match statusFromStr ((trim s).take 4) with
      | .error e => .error e
      | .ok st =>
        match parseU8 ((((trim s).drop 4).take 2).filter (fun c => !(c == 'W'))) with
        | none => .error .invalidBalanceId
        | some i =>
          if isValidFloat (trim (normalizeWeight (((trim s).drop 4).drop 2))) then
            .ok ⟨st, i, trim (normalizeWeight (((trim s).drop 4).drop 2))⟩
          else .error .invalidBalanceId) := by
  unfold messageFromStr
  rw [if_neg (by omega), if_neg (by simp [ha])]

theorem messageFromStr_ok_parts (s : List Char) (m : Message)
    (h : messageFromStr s = .ok m) :
    statusFromStr ((trim s).take 4) = .ok m.status ∧
    parseU8 ((((trim s).drop 4).take 2).filter (fun c => !(c == 'W'))) = some m.id := by
  unfold messageFromStr at h
  dsimp only at h
  split_ifs at h
  · split at h
    case _ e heq => cases h
    case _ st heq1 =>
      split at h
      case _ heq2 => cases h
      case _ i heq2 =>
        injection h with hm
        subst hm
        exact ⟨heq1, heq2⟩
  · split at h
    case _ e heq => cases h
    case _ st heq1 =>
      split at h
      case _ heq2 => cases h
      case _ i heq2 => cases h

/-! ### The claims -/

/-- C1: serializing a `Command` yields exactly the tabulated wire string:
`Tare` gives `<T>`, `ClearTare` gives `<TC>`, and for every `v ≤ 9999999`
`SetTare v` gives `<T` followed by `v` zero-padded to exactly 7 digits
followed by `>`; for every `v > 9999999` serialization fails with the
tare-value error and no string is produced. -/
theorem command_serialize_table :
    commandToAsciiString .tare = .ok (chars "<T>")
    ∧ commandToAsciiString .clearTare = .ok (chars "<TC>")
    ∧ (∀ v : Nat, v ≤ 9999999 →
        commandToAsciiString (.setTare v) = .ok ('<' :: 'T' :: (zeroPad7 v ++ ['>']))
        ∧ (zeroPad7 v).length = 7 ∧ digitsVal (zeroPad7 v) = v)
    ∧ (∀ v : Nat, 9999999 < v →
        commandToAsciiString (.setTare v) = .error .invalidTareValue) := by
  refine ⟨rfl, rfl, ?_, ?_⟩
  · intro v hv
    refine ⟨?_, zeroPad7_length v hv, zeroPad7_val v⟩
    simp only [commandToAsciiString]
    rw [if_neg (by omega)]
  · intro v hv
    simp only [commandToAsciiString]
    rw [if_pos (by omega)]

/-- Witness for C1 at `SetTare 1234567` and `SetTare 99999999`. -/
theorem command_serialize_table_witness :
    commandToAsciiString (.setTare 1234567) = .ok (chars "<T1234567>")
    ∧ commandToAsciiString (.setTare 99999999) = .error .invalidTareValue := by
  constructor
  · have h := (command_serialize_table.2.2.1 1234567 (by norm_num)).1
    rw [h]
    rfl
  · exact command_serialize_table.2.2.2 99999999 (by norm_num)

/-- C8: for every `Command` and `Query`, the acknowledgment-wrapped
serialization equals the unwrapped serialization with the tag letter
lowercased and everything else identical (including the 7-digit padding of
`SetTare`), and the wrapped serialization fails, with the tare-value error,
exactly when the unwrapped one does. -/
theorem with_ack_serialization_relation :
    (∀ c : Command, withAckCommandToAsciiString c =
      Except.map lowerTag (commandToAsciiString c))
    ∧ (∀ q : Query, withAckQueryToAsciiString q =
      Except.map lowerTag (queryToAsciiString q))
    ∧ (∀ c : Command, ∀ e : Err,
      (withAckCommandToAsciiString c = .error e ↔ commandToAsciiString c = .error e))
    ∧ (∀ c : Command, ∀ e : Err,
      commandToAsciiString c = .error e → e = .invalidTareValue) := by
  refine ⟨?_, ?_, ?_, ?_⟩
  · intro c
    cases c with
    | tare => rfl
    | clearTare => rfl
    | setTare v =>
      simp only [commandToAsciiString, withAckCommandToAsciiString]
      split_ifs with h
      · rfl
      · rfl
  · intro q; cases q <;> rfl
  · intro c e
    cases c with
    | tare =>
      simp [commandToAsciiString, withAckCommandToAsciiString, chars]
    | clearTare =>
      simp [commandToAsciiString, withAckCommandToAsciiString, chars]
    | setTare v =>
      simp only [commandToAsciiString, withAckCommandToAsciiString]
      split_ifs with h
      · exact Iff.rfl
      · simp
  · intro c e h
    cases c with
    | tare => cases h
    | clearTare => cases h
    | setTare v =>
      simp only [commandToAsciiString] at h
      split_ifs at h
      injection h with he
      exact he.symm

/-- Witness for C8 at `SetTare 42` and the failing `SetTare 100000000`. -/
theorem with_ack_serialization_relation_witness :
    withAckCommandToAsciiString (.setTare 42) =
      Except.map lowerTag (commandToAsciiString (.setTare 42))
    ∧ Err.invalidTareValue = Err.invalidTareValue := by
  constructor
  · exact with_ack_serialization_relation.1 (.setTare 42)
  · exact with_ack_serialization_relation.2.2.2 (.setTare 100000000)
      Err.invalidTareValue (by rfl)

/-- C3: for every 4-character string whose characters are all `0` or `1`,
`Status` parsing succeeds and each flag equals whether the character at its
fixed position is `1`, in the order under_load, over_load, standstill,
empty_message; for every 4-character ASCII string containing a character
other than `0`/`1`, it fails with the parse-boolean error. -/
theorem status_parse_flags (a b c d : Char) :
    ((a = '0' ∨ a = '1') → (b = '0' ∨ b = '1') → (c = '0' ∨ c = '1') → (d = '0' ∨ d = '1') →
      statusFromStr [a, b, c, d] = .ok ⟨a == '1', b == '1', c == '1', d == '1'⟩)
    ∧ (allAscii [a, b, c, d] = true →
      ¬ ((a = '0' ∨ a = '1') ∧ (b = '0' ∨ b = '1') ∧ (c = '0' ∨ c = '1') ∧ (d = '0' ∨ d = '1')) →
      statusFromStr [a, b, c, d] = .error .couldNotParseBoolean) := by
  constructor
  · intro ha hb hc hd
    rcases ha with rfl | rfl <;> rcases hb with rfl | rfl <;> rcases hc with rfl | rfl <;>
      rcases hd with rfl | rfl <;> rfl
  · intro ha hbad
    have h4 : byteLen [a, b, c, d] = 4 := by
      rw [byteLen_of_ascii _ ha]; rfl
    rcases statusFromStr_cases [a, b, c, d] h4 ha with ⟨st, hok⟩ | herr
    · exact absurd (statusFromStr_ok_chars a b c d st hok) hbad
    · exact herr

/-- Witness for C3 at `"0100"` and `"0a10"`. -/
theorem status_parse_flags_witness :
    statusFromStr ['0', '1', '0', '0'] = .ok ⟨false, true, false, false⟩
    ∧ statusFromStr ['0', 'a', '1', '0'] = .error .couldNotParseBoolean := by
  constructor
  · have h := (status_parse_flags '0' '1' '0' '0').1
      (Or.inl rfl) (Or.inr rfl) (Or.inl rfl) (Or.inl rfl)
    rw [h]
    rfl
  · exact (status_parse_flags '0' 'a' '1' '0').2 (by decide) (by decide)

/-- C7: `Status` parsing fails with the message-length error for every
input whose byte length is not 4, and with the non-ASCII error for every
4-byte input containing a non-ASCII character, both checked before any
flag character is examined. -/
theorem status_parse_gate (l : List Char) :
    (byteLen l ≠ 4 → statusFromStr l = .error .invalidMessageLength)
    ∧ (byteLen l = 4 → (∃ c ∈ l, isAsciiChar c = false) →
      statusFromStr l = .error .nonAsciiStr) := by
  constructor
  · intro h
    unfold statusFromStr
    rw [if_pos h]
  · rintro h4 ⟨c, hc, hna⟩
    unfold statusFromStr
    rw [if_neg (by omega), if_pos (allAscii_not_of_mem l c hc hna)]

/-- Witness for C7 at `"000"` and the 4-byte non-ASCII `"¡¡"`. -/
theorem status_parse_gate_witness :
    statusFromStr ['0', '0', '0'] = .error .invalidMessageLength
    ∧ statusFromStr ['¡', '¡'] = .error .nonAsciiStr := by
  constructor
  · exact (status_parse_gate ['0', '0', '0']).1 (by decide)
  · exact (status_parse_gate ['¡', '¡']).2 (by decide) ⟨'¡', by decide, by decide⟩

/-- C2: `Response` parsing first trims the input; an input empty after
trimming fails with the message-length error; otherwise a first byte 0x06
gives `Ack`, a first byte 0x15 gives `Nak`, and in every other case the
result is exactly the `Message` parse of the full trimmed text with any
error propagated unchanged. -/
theorem response_parse_classify (s : List Char) :
    (trim s = [] → responseFromStr s = .error .invalidMessageLength)
    ∧ (∀ c rest, trim s = c :: rest → utf8LeadByte c = 0x06 →
      responseFromStr s = .ok .ack)
    ∧ (∀ c rest, trim s = c :: rest → utf8LeadByte c = 0x15 →
      responseFromStr s = .ok .nak)
    ∧ (∀ c rest, trim s = c :: rest → utf8LeadByte c ≠ 0x06 → utf8LeadByte c ≠ 0x15 →
      responseFromStr s = Except.map Response.message (messageFromStr (trim s))) := by
  refine ⟨?_, ?_, ?_, ?_⟩
  · intro h
    unfold responseFromStr
    dsimp only
    rw [h]
    rfl
  · intro c rest h hlead
    unfold responseFromStr
    dsimp only
    rw [h, if_neg (by rw [byteLen_cons]; have := utf8Len_pos c; omega)]
    dsimp only
    rw [if_pos hlead]
  · intro c rest h hlead
    unfold responseFromStr
    dsimp only
    rw [h, if_neg (by rw [byteLen_cons]; have := utf8Len_pos c; omega)]
    dsimp only
    rw [if_neg (by omega), if_pos hlead]
  · intro c rest h h6 h15
    unfold responseFromStr
    dsimp only
    rw [h, if_neg (by rw [byteLen_cons]; have := utf8Len_pos c; omega)]
    dsimp only
    rw [if_neg h6, if_neg h15]
    cases messageFromStr (c :: rest) <;> rfl

/-- Witness for C2 at blank, ACK, NAK and data inputs. -/
theorem response_parse_classify_witness :
    responseFromStr (chars "  ") = .error .invalidMessageLength
    ∧ responseFromStr ['\x06'] = .ok .ack
    ∧ responseFromStr ['\x15'] = .ok .nak
    ∧ responseFromStr (chars "Foo x") =
      Except.map Response.message (messageFromStr (trim (chars "Foo x"))) := by
  refine ⟨?_, ?_, ?_, ?_⟩
  · exact (response_parse_classify (chars "  ")).1 (by decide)
  · exact (response_parse_classify ['\x06']).2.1 '\x06' [] (by decide) (by decide)
  · exact (response_parse_classify ['\x15']).2.2.1 '\x15' [] (by decide) (by decide)
  · exact (response_parse_classify (chars "Foo x")).2.2.2 'F' (chars "oo x")
      (by decide) (by decide) (by decide)

/-- C10: `Response` parsing classifies by the first byte only, with no
length, single-byte or ASCII check on control replies: whenever the trimmed
input starts with byte 0x06 the result is `Ack`, and with 0x15 it is `Nak`,
regardless of how many further characters follow and of their content. -/
theorem response_classify_first_byte_only (s : List Char) (c : Char) (rest : List Char)
    (h : trim s = c :: rest) :
    (utf8LeadByte c = 0x06 → responseFromStr s = .ok .ack)
    ∧ (utf8LeadByte c = 0x15 → responseFromStr s = .ok .nak) := by
  constructor
  · intro hlead
    unfold responseFromStr
    dsimp only
    rw [h, if_neg (by rw [byteLen_cons]; have := utf8Len_pos c; omega)]
    dsimp only
    rw [if_pos hlead]
  · intro hlead
    unfold responseFromStr
    dsimp only
    rw [h, if_neg (by rw [byteLen_cons]; have := utf8Len_pos c; omega)]
    dsimp only
    rw [if_neg (by omega), if_pos hlead]

/-- Witness for C10 on control bytes followed by arbitrary junk. -/
theorem response_classify_first_byte_only_witness :
    responseFromStr ['\x06', 'a', 'b', 'c'] = .ok .ack
    ∧ responseFromStr ['\x15', 'x', 'y', 'z'] = .ok .nak := by
  constructor
  · exact (response_classify_first_byte_only ['\x06', 'a', 'b', 'c'] '\x06'
      ['a', 'b', 'c'] (by decide)).1 (by decide)
  · exact (response_classify_first_byte_only ['\x15', 'x', 'y', 'z'] '\x15'
      ['x', 'y', 'z'] (by decide)).2 (by decide)

/-- C4: `Message` parsing rejects, before any field-level parsing, every
input whose trimmed byte length is below 7 or above 27 (message-length
error) and every in-range input containing a non-ASCII character
(non-ASCII error); trimmed inputs with byte length in `[7, 27]` that are
all ASCII pass this gate: they can only produce a field-level result. -/
theorem message_parse_gate (s : List Char) :
    (byteLen (trim s) < 7 ∨ 27 < byteLen (trim s) →
      messageFromStr s = .error .invalidMessageLength)
    ∧ (7 ≤ byteLen (trim s) → byteLen (trim s) ≤ 27 →
      (∃ c ∈ trim s, isAsciiChar c = false) →
      messageFromStr s = .error .noneAsciiStr)
    ∧ (7 ≤ byteLen (trim s) → byteLen (trim s) ≤ 27 → allAscii (trim s) = true →
      messageFromStr s ≠ .error .invalidMessageLength
      ∧ messageFromStr s ≠ .error .noneAsciiStr
      ∧ messageFromStr s ≠ .error .nonAsciiStr) := by
  refine ⟨?_, ?_, ?_⟩
  · intro h
    unfold messageFromStr
    dsimp only
    rw [if_pos (by omega)]
  · rintro h7 h27 ⟨c, hc, hna⟩
    unfold messageFromStr
    dsimp only
    rw [if_neg (by omega), if_pos (allAscii_not_of_mem _ c hc hna)]
  · intro h7 h27 ha
    rw [messageFromStr_gate_eq s h7 h27 ha]
    have h4 := byteLen_take_four (trim s) ha h7
    rcases statusFromStr_cases _ h4 (allAscii_take 4 _ ha) with ⟨st, hst⟩ | hst <;>
      rw [hst] <;> dsimp only
    · cases hid : parseU8 ((((trim s).drop 4).take 2).filter (fun c => !(c == 'W'))) with
      | none => exact ⟨by simp, by simp, by simp⟩
      | some i =>
        dsimp only
        split_ifs <;> exact ⟨by simp, by simp, by simp⟩
    · exact ⟨by simp, by simp, by simp⟩

/-- Witness for C4 at a short input, an in-range non-ASCII input, and a
well-formed input. -/
theorem message_parse_gate_witness :
    messageFromStr (chars "0000W1") = .error .invalidMessageLength
    ∧ messageFromStr (chars "000000é") = .error .noneAsciiStr
    ∧ messageFromStr (chars "001101N     -0,001 kg ") ≠ .error .invalidMessageLength := by
  refine ⟨?_, ?_, ?_⟩
  · exact (message_parse_gate _).1 (by decide)
  · exact (message_parse_gate _).2.1 (by decide) (by decide) ⟨'é', by decide, by decide⟩
  · exact ((message_parse_gate _).2.2 (by decide) (by decide) (by decide)).1

/-- C5: the id field is the 2 characters at positions 5 and 6 of the
trimmed input; every `W` in it is stripped and the remainder parsed as a
non-negative integer (so a `W9` field yields id 9), and when the stripped
remainder does not parse (such as `XX`) parsing fails with the balance-id
error (given that the status field parsed, which is checked first). -/
theorem message_id_field (s : List Char) :
    (∀ m, messageFromStr s = .ok m →
      parseU8 ((((trim s).drop 4).take 2).filter (fun c => !(c == 'W'))) = some m.id)
    ∧ (7 ≤ byteLen (trim s) → byteLen (trim s) ≤ 27 → allAscii (trim s) = true →
      (∃ st, statusFromStr ((trim s).take 4) = .ok st) →
      parseU8 ((((trim s).drop 4).take 2).filter (fun c => !(c == 'W'))) = none →
      messageFromStr s = .error .invalidBalanceId)
    ∧ messageFromStr (chars "0000W9N    -1000,0 kg") =
      .ok ⟨⟨false, false, false, false⟩, 9, chars "-1000.0"⟩
    ∧ messageFromStr (chars "0000XXN    -1000,0 kg") = .error .invalidBalanceId := by
  refine ⟨?_, ?_, by rfl, by rfl⟩
  · intro m h
    exact (messageFromStr_ok_parts s m h).2
  · rintro h7 h27 ha ⟨st, hst⟩ hid
    rw [messageFromStr_gate_eq s h7 h27 ha, hst]
    dsimp only
    rw [hid]

/-- Witness for C5 at a `W9` id field and a bad `YY` id field. -/
theorem message_id_field_witness :
    parseU8 ((((trim (chars "0000W8N    -1000,0 kg")).drop 4).take 2).filter
      (fun c => !(c == 'W'))) = some 8
    ∧ messageFromStr (chars "0000YYN    -1000,0 kg") = .error .invalidBalanceId := by
  constructor
  · exact (message_id_field (chars "0000W8N    -1000,0 kg")).1
      ⟨⟨false, false, false, false⟩, 8, chars "-1000.0"⟩ (by rfl)
  · exact (message_id_field (chars "0000YYN    -1000,0 kg")).2.1
      (by decide) (by decide) (by decide)
      ⟨⟨false, false, false, false⟩, by rfl⟩ (by rfl)

/-- C6: at the failing input `"000000Nabc"` the status and id fields parse
but the weight token `abc` is not a valid float; the code then produces the
same "Invalid balance ID" error value it uses for the id field
(src/lib.rs:153), not a distinct balance-value error (which does not exist
anywhere in the code). -/
theorem weight_parse_error_is_balance_id :
    messageFromStr (chars "000000Nabc") = .error .invalidBalanceId := by rfl

/-- C9: for every input on which `Message` parsing succeeds, the resulting
id lies in 0–99. -/
theorem message_id_le_99 (s : List Char) (m : Message)
    (h : messageFromStr s = .ok m) : m.id ≤ 99 := by
  have hid := (messageFromStr_ok_parts s m h).2
  refine parseU8_le_99 _ m.id ?_ hid
  refine le_trans (List.length_filter_le _ _) ?_
  rw [List.length_take]
  omega

/-- Witness for C9 at the largest id the wire format can carry. -/
theorem message_id_le_99_witness :
    (⟨⟨false, false, false, false⟩, 99, chars "-1000.0"⟩ : Message).id ≤ 99 :=
  message_id_le_99 (chars "000099N    -1000,0 kg") _ (by rfl)

end Soehnle
